import Mathlib

/-!
# WelcomePagesModel page traversal, formally

A shallow embedding of the page-sequencing logic of
src/cura/UI/WelcomePagesModel.py (class WelcomePagesModel), together with
theorems about its navigation operations.

Modelling choices, each tied to a line of the Python source:

* A page item is a dict with keys id, page_url, next_page_id (optional) and
  should_show_function (optional zero-argument callable).  The page_url field
  is opaque UI data never read by the traversal logic, so it is omitted.
  The should_show_function callable is, per the design, a pure boolean query
  of external state; we model it by the boolean it returns (absent = none).
* The model state is current_page_index together with the deque
  _previous_page_indices_stack.  The deque is used with append and pop,
  i.e. as a stack whose top is the right end; we model it as a List Int
  whose top is the last element.
* Python integers are modelled as Int.  List indexing items[i] follows
  Python semantics: a negative i counts from the end, and an out-of-range
  index raises IndexError, modelled by pyGet returning none.
* UM.Qt.ListModel.getItem returns the empty dict on a failed index; an
  empty dict has no should_show_function, so shouldPageBeShown treats a
  none result from getItem as True, matching dict.get with a default.
* Qt signal emissions (currentPageIndexChanged, allFinished) are modelled
  as an explicit list of events returned by each operation, in emission
  order.  Logger calls have no observable effect and are not modelled.
* The while-True loop of goToNextPage can diverge (see the cycle theorems),
  so it is modelled with explicit fuel: a none result means the fuel ran
  out, while some r means the loop exited with outcome r after finitely
  many iterations.  Every claim about a terminating run states which fuel
  suffices; fuel-monotonicity makes the choice of fuel irrelevant.
-/

namespace WelcomePages

/-- Observable Qt signal emissions of WelcomePagesModel. -/
inductive Event where
  | currentPageIndexChanged
  | allFinished
deriving DecidableEq, Repr

/-- One page item, as appended to self._pages in initialize().
next_page_id models the optional "next_page_id" dict entry and
should_show_function models the boolean returned by the optional
"should_show_function" callable (none when the key is absent). -/
structure Page where
  id : String
  next_page_id : Option String := none
  should_show_function : Option Bool := none
deriving DecidableEq, Repr

/-- Mutable traversal state: self._current_page_index and
self._previous_page_indices_stack (top of the deque = last element). -/
structure SeqState where
  current_page_index : Int
  history : List Int
deriving DecidableEq, Repr

/-- Python list indexing items[i]: nonnegative indices from the front,
negative indices count from the end, anything else raises IndexError
(modelled as none). -/
def pyGet (items : List Page) (i : Int) : Option Page :=
  if 0 ≤ i then items.get? i.toNat
  else if 0 ≤ i + items.length then items.get? (i + items.length).toNat
  else none

/-- UM.Qt.ListModel.getItem: returns the item at the index, or the empty
dict (modelled as none) when indexing fails. -/
def getItem (items : List Page) (i : Int) : Option Page :=
  pyGet items i

/-- Python helper behind getPageIndexById: scan from position n and return
the position of the first page whose id matches. -/
def findPageIdx (page_id : String) : List Page → Nat → Option Nat
  | [], _ => none
  | p :: rest, n => if p.id = page_id then some n else findPageIdx page_id rest (n + 1)

/-- getPageIndexById(page_id): index of the first page with the given id,
none when no page matches (the enumerate loop with break). -/
def getPageIndexById (items : List Page) (page_id : String) : Option Int :=
  match findPageIdx page_id items 0 with
  | none => none
  | some n => some (n : Int)

/-- _shouldPageBeShown(page_index): getItem(page_index).get with a default
that returns True; an absent function (or an empty dict from a failed
getItem) means the page is shown. -/
def shouldPageBeShown (items : List Page) (page_index : Int) : Bool :=
  match getItem items page_index with
  | none => true
  | some p => p.should_show_function.getD true

/-- The Python truthiness test if next_page_id: on the result of
page_item.get("next_page_id"): an absent key gives None (falsy) and the
empty string is falsy as well. -/
def activeNextPageId (p : Page) : Option String :=
  match p.next_page_id with
  | none => none
  | some s => if s = "" then none else some s

/-- One successor resolution step of the goToNextPage loop body: the
candidate next index is getPageIndexById(next_page_id) when a truthy
next_page_id is present (error on an unknown id), else current_index + 1. -/
def resolveNext (items : List Page) (p : Page) (current_index : Int) : Except String Int :=
  match activeNextPageId p with
  | none => Except.ok (current_index + 1)
  | some pid =>
    match getPageIndexById items pid with
    | none => Except.error pid
    | some idx => Except.ok idx

/-- _setCurrentPageIndex(page_index): when the index differs from the
current one, push the current index, set the new one and emit
currentPageIndexChanged; otherwise do nothing at all. -/
def setCurrentPageIndex (s : SeqState) (page_index : Int) : SeqState × List Event :=
  if page_index ≠ s.current_page_index then
    (⟨page_index, s.history ++ [s.current_page_index]⟩, [Event.currentPageIndexChanged])
  else
    (s, [])

/-- resetState(): current index back to 0, history cleared,
currentPageIndexChanged emitted. -/
def resetState (_s : SeqState) : SeqState × List Event :=
  (⟨0, []⟩, [Event.currentPageIndexChanged])

/-- atEnd(): emit allFinished, then resetState(). -/
def atEnd (s : SeqState) : SeqState × List Event :=
  (⟨0, []⟩, Event.allFinished :: (resetState s).2)

/-- The possible exits of the while-True loop inside goToNextPage. -/
inductive NextResult where
  | indexError
  | unknownId (pid : String)
  | finished
  | move (idx : Int)
deriving DecidableEq, Repr

/-- The while-True loop of goToNextPage, with explicit fuel.  Each
iteration reads items[current_index] (IndexError when out of range),
resolves the candidate next index (returning on an unknown next_page_id),
finishes when the candidate equals len(items), breaks with the candidate
when its page should be shown, and otherwise continues from the candidate. -/
def goToNextLoop (items : List Page) : Nat → Int → Option NextResult
  | 0, _ => none
  | fuel + 1, current_index =>
    match pyGet items current_index with
    | none => some NextResult.indexError
    | some page_item =>
      match resolveNext items page_item current_index with
      | Except.error pid => some (NextResult.unknownId pid)
      | Except.ok idx =>
        if idx = (items.length : Int) then some NextResult.finished
        else if shouldPageBeShown items idx then some (NextResult.move idx)
        else goToNextLoop items fuel idx

/-- Outcome of one navigation call: either a new state with the events it
emitted, or an uncaught IndexError escaping the call. -/
inductive OpResult where
  | ok (s : SeqState) (events : List Event)
  | indexError
deriving DecidableEq, Repr

/-- goToNextPage(from_index): run the loop from from_index when given,
else from the current index; an unknownId exit returns with the state
untouched, a finished exit runs atEnd, and a move exit runs
_setCurrentPageIndex on the candidate.  none means the fuel ran out. -/
def goToNextPage (items : List Page) (fuel : Nat) (s : SeqState)
    (from_index : Option Int) : Option OpResult :=
  match goToNextLoop items fuel (from_index.getD s.current_page_index) with
  | none => none
  | some NextResult.indexError => some OpResult.indexError
  | some (NextResult.unknownId _) => some (OpResult.ok s [])
  | some NextResult.finished => some (OpResult.ok (atEnd s).1 (atEnd s).2)
  | some (NextResult.move idx) =>
      some (OpResult.ok (setCurrentPageIndex s idx).1 (setCurrentPageIndex s idx).2)

/-- goToPreviousPage(): no-op when the stack is empty, otherwise pop the
top of the stack straight into current_page_index (no push, no visibility
check: the definition does not even consult the page list) and emit
currentPageIndexChanged. -/
def goToPreviousPage (s : SeqState) : SeqState × List Event :=
  match s.history.getLast? with
  | none => (s, [])
  | some j => (⟨j, s.history.dropLast⟩, [Event.currentPageIndexChanged])

/-- goToPage(page_id): no-op on an unknown id; jump via
_setCurrentPageIndex when the resolved page should be shown; otherwise
delegate to goToNextPage(from_index = resolved index). -/
def goToPage (items : List Page) (fuel : Nat) (s : SeqState)
    (page_id : String) : Option OpResult :=
  match getPageIndexById items page_id with
  | none => some (OpResult.ok s [])
  | some page_index =>
    if shouldPageBeShown items page_index then
      some (OpResult.ok (setCurrentPageIndex s page_index).1 (setCurrentPageIndex s page_index).2)
    else
      goToNextPage items fuel s (some page_index)

/-- currentProgress: 0 on an empty page list, else the true division
current_page_index / len(items), taken in the rationals. -/
def currentProgress (items : List Page) (s : SeqState) : ℚ :=
  if items.length = 0 then 0
  else (s.current_page_index : ℚ) / (items.length : ℚ)

/-- isCurrentPageLast: current_page_index == len(items) - 1. -/
def isCurrentPageLast (items : List Page) (s : SeqState) : Bool :=
  s.current_page_index = (items.length : Int) - 1

/-- k consecutive goToNextPage() calls (no from_index), threading the
state and concatenating the emitted events; none as soon as one call runs
out of fuel or raises. -/
def iterNext (items : List Page) (fuel : Nat) : Nat → SeqState → Option (SeqState × List Event)
  | 0, s => some (s, [])
  | k + 1, s =>
    match goToNextPage items fuel s none with
    | some (OpResult.ok s2 ev) =>
      match iterNext items fuel k s2 with
      | some (s3, evs) => some (s3, ev ++ evs)
      | none => none
    | _ => none

/-- j consecutive goToPreviousPage() calls, threading the state and
concatenating the emitted events. -/
def iterPrev : Nat → SeqState → SeqState × List Event
  | 0, s => (s, [])
  | j + 1, s =>
    let r := goToPreviousPage s
    let r2 := iterPrev j r.1
    (r2.1, r.2 ++ r2.2)

/-- The list of indices 0, 1, ..., k-1 as integers. -/
def intRange (k : Nat) : List Int :=
  (List.range k).map (fun n => (n : Int))

/-- The continuation relation of the goToNextPage loop: hiddenNext items i
is some j exactly when an iteration at current_index = i neither raises,
nor returns on an unknown id, nor finishes, nor breaks, but continues the
loop at j (a hidden candidate page). -/
def hiddenNext (items : List Page) (i : Int) : Option Int :=
  match pyGet items i with
  | none => none
  | some page_item =>
    match resolveNext items page_item i with
    | Except.error _ => none
    | Except.ok idx =>
      if idx = (items.length : Int) then none
      else if shouldPageBeShown items idx then none
      else some idx

/-- k-fold iteration of the continuation relation hiddenNext. -/
def hiddenNextIter (items : List Page) : Nat → Int → Option Int
  | 0, i => some i
  | k + 1, i =>
    match hiddenNext items i with
    | none => none
    | some j => hiddenNextIter items k j

/-- The page configuration has a cycle of hidden pages: some index returns
to itself after one or more continuation steps of the skip loop, every
page on the way being a hidden candidate. -/
def HasHiddenCycle (items : List Page) : Prop :=
  ∃ i : Int, ∃ k : Nat, hiddenNextIter items (k + 1) i = some i

/-! Concrete page configurations used in the example theorems below.  Each
is a legal value of the pages list of the Python model (unique ids, every
next_page_id naming an existing page unless said otherwise). -/

/-- A plain visible page with id a. -/
def pA : Page := ⟨"a", none, none⟩

/-- A plain visible page with id b. -/
def pB : Page := ⟨"b", none, none⟩

/-- Two plain pages: no next_page_id, no should_show_function. -/
def plainPair : List Page := [pA, pB]

/-- First page names itself as its successor. -/
def selfLoopPages : List Page := [⟨"a", some ("a"), none⟩, pB]

/-- The page at index 0 has a visibility predicate returning False. -/
def hiddenFirstPages : List Page := [⟨"a", none, some false⟩, pB]

/-- A page whose next_page_id names no existing page. -/
def unknownIdPages : List Page := [⟨"a", some ("zz"), none⟩]

/-- A hidden page b whose next_page_id points back to the earlier page a. -/
def backJumpPages : List Page := [pA, ⟨"b", some ("a"), some false⟩, ⟨"c", none, none⟩]

/-- Page a leads into a next_page_id cycle b -> c -> b of two pages whose
visibility predicates always return False. -/
def cyclePages : List Page :=
  [⟨"a", some ("b"), none⟩, ⟨"b", some ("c"), some false⟩, ⟨"c", some ("b"), some false⟩]

/-! ### Basic facts about the embedded operations -/

theorem pyGet_natCast (items : List Page) (k : Nat) :
    pyGet items (k : Int) = items.get? k := by
  simp [pyGet]

theorem pyGet_nil (i : Int) : pyGet [] i = none := by
  simp [pyGet]

theorem pyGet_eq_none_iff {items : List Page} {i : Int} :
    pyGet items i = none ↔ (items.length : Int) ≤ i ∨ i < -(items.length : Int) := by
  unfold pyGet
  split_ifs with h1 h2
  · rw [List.get?_eq_none]
    omega
  · rw [List.get?_eq_none]
    omega
  · exact iff_of_true rfl (Or.inr (by omega))

theorem pyGet_mem {items : List Page} {i : Int} {p : Page} (h : pyGet items i = some p) :
    p ∈ items := by
  unfold pyGet at h
  split_ifs at h <;> exact List.get?_mem h

theorem findPageIdx_bounds {pid : String} :
    ∀ {l : List Page} {n m : Nat}, findPageIdx pid l n = some m → n ≤ m ∧ m < n + l.length := by
  intro l
  induction l with
  | nil => intro n m h; simp [findPageIdx] at h
  | cons p rest ih =>
    intro n m h
    rw [findPageIdx] at h
    split_ifs at h with hh
    · injection h with h
      subst h
      simp only [List.length_cons]
      omega
    · have := ih h
      simp only [List.length_cons]
      omega

theorem getPageIndexById_bounds {items : List Page} {pid : String} {idx : Int}
    (h : getPageIndexById items pid = some idx) :
    0 ≤ idx ∧ idx < (items.length : Int) := by
  unfold getPageIndexById at h
  cases hf : findPageIdx pid items 0 with
  | none => rw [hf] at h; cases h
  | some n =>
    rw [hf] at h
    injection h with h
    subst h
    have := findPageIdx_bounds hf
    omega

theorem resolveNext_ok_bounds {items : List Page} {p : Page} {i idx : Int}
    (h : resolveNext items p i = Except.ok idx) :
    idx = i + 1 ∨ (0 ≤ idx ∧ idx < (items.length : Int)) := by
  unfold resolveNext at h
  cases ha : activeNextPageId p with
  | none =>
    simp only [ha] at h
    injection h with h
    exact Or.inl h.symm
  | some pid =>
    simp only [ha] at h
    cases hg : getPageIndexById items pid with
    | none => simp only [hg] at h; cases h
    | some j =>
      simp only [hg] at h
      injection h with h
      subst h
      exact Or.inr (getPageIndexById_bounds hg)

theorem goToNextLoop_mono {items : List Page} :
    ∀ {f f2 : Nat} {i : Int} {r : NextResult},
      goToNextLoop items f i = some r → f ≤ f2 → goToNextLoop items f2 i = some r := by
  intro f
  induction f with
  | zero => intro f2 i r h _; simp [goToNextLoop] at h
  | succ f ih =>
    intro f2 i r h hle
    obtain ⟨g, rfl⟩ : ∃ g, f2 = g + 1 := ⟨f2 - 1, by omega⟩
    rw [goToNextLoop] at h ⊢
    cases hp : pyGet items i with
    | none => simp only [hp] at h ⊢; exact h
    | some page =>
      simp only [hp] at h ⊢
      cases hr : resolveNext items page i with
      | error pid => simp only [hr] at h ⊢; exact h
      | ok idx =>
        simp only [hr] at h ⊢
        by_cases hN : idx = (items.length : Int)
        · rw [if_pos hN] at h ⊢; exact h
        · rw [if_neg hN] at h ⊢
          by_cases hs : shouldPageBeShown items idx = true
          · rw [if_pos hs] at h ⊢; exact h
          · rw [if_neg hs] at h ⊢
            exact ih h (by omega)

theorem goToNextLoop_move_shown {items : List Page} :
    ∀ {f : Nat} {i idx : Int}, goToNextLoop items f i = some (NextResult.move idx) →
      shouldPageBeShown items idx = true := by
  intro f
  induction f with
  | zero => intro i idx h; simp [goToNextLoop] at h
  | succ f ih =>
    intro i idx h
    rw [goToNextLoop] at h
    cases hp : pyGet items i with
    | none => simp only [hp] at h; cases h
    | some page =>
      simp only [hp] at h
      cases hr : resolveNext items page i with
      | error pid => simp only [hr] at h; cases h
      | ok j =>
        simp only [hr] at h
        by_cases hN : j = (items.length : Int)
        · rw [if_pos hN] at h; cases h
        · rw [if_neg hN] at h
          by_cases hs : shouldPageBeShown items j = true
          · rw [if_pos hs] at h
            injection h with h
            injection h with h
            subst h
            exact hs
          · rw [if_neg hs] at h
            exact ih h

theorem goToNextLoop_none_step {items : List Page} {f : Nat} {i : Int}
    (h : goToNextLoop items (f + 1) i = none) :
    ∃ j, hiddenNext items i = some j ∧ goToNextLoop items f j = none := by
  rw [goToNextLoop] at h
  unfold hiddenNext
  cases hp : pyGet items i with
  | none => simp only [hp] at h; cases h
  | some page =>
    simp only [hp] at h ⊢
    cases hr : resolveNext items page i with
    | error pid => simp only [hr] at h; cases h
    | ok idx =>
      simp only [hr] at h ⊢
      by_cases hN : idx = (items.length : Int)
      · rw [if_pos hN] at h; cases h
      · rw [if_neg hN] at h ⊢
        by_cases hs : shouldPageBeShown items idx = true
        · rw [if_pos hs] at h; cases h
        · rw [if_neg hs] at h ⊢
          exact ⟨idx, rfl, h⟩

theorem hiddenNext_bounds {items : List Page} {i j : Int}
    (hi0 : 0 ≤ i) (hiN : i < (items.length : Int)) (h : hiddenNext items i = some j) :
    0 ≤ j ∧ j < (items.length : Int) := by
  unfold hiddenNext at h
  cases hp : pyGet items i with
  | none => simp only [hp] at h; cases h
  | some page =>
    simp only [hp] at h
    cases hr : resolveNext items page i with
    | error pid => simp only [hr] at h; cases h
    | ok idx =>
      simp only [hr] at h
      by_cases hN : idx = (items.length : Int)
      · rw [if_pos hN] at h; cases h
      · rw [if_neg hN] at h
        by_cases hs : shouldPageBeShown items idx = true
        · rw [if_pos hs] at h; cases h
        · rw [if_neg hs] at h
          injection h with h
          subst h
          rcases resolveNext_ok_bounds hr with h1 | h1 <;> omega

theorem hiddenNextIter_add (items : List Page) :
    ∀ (m n : Nat) (i : Int),
      hiddenNextIter items (m + n) i =
        match hiddenNextIter items m i with
        | none => none
        | some j => hiddenNextIter items n j := by
  intro m
  induction m with
  | zero =>
    intro n i
    simp [hiddenNextIter]
  | succ m ih =>
    intro n i
    have e : m + 1 + n = (m + n) + 1 := by omega
    rw [e, hiddenNextIter, hiddenNextIter]
    cases hh : hiddenNext items i with
    | none => rfl
    | some j => exact ih n j

theorem hiddenNextIter_succ_right (items : List Page) (t : Nat) (i : Int) :
    hiddenNextIter items (t + 1) i =
      match hiddenNextIter items t i with
      | none => none
      | some j => hiddenNext items j := by
  rw [hiddenNextIter_add items t 1 i]
  cases hiddenNextIter items t i with
  | none => rfl
  | some j =>
    show hiddenNextIter items 1 j = hiddenNext items j
    rw [hiddenNextIter]
    cases hh : hiddenNext items j <;> simp [hiddenNextIter, hh]

theorem hiddenNext_eq_none_of_allShown {items : List Page}
    (h : ∀ p ∈ items, p.should_show_function = none) (i : Int) :
    hiddenNext items i = none := by
  unfold hiddenNext
  cases hp : pyGet items i with
  | none => simp [hp]
  | some page =>
    simp only [hp]
    cases hr : resolveNext items page i with
    | error pid => simp [hr]
    | ok idx =>
      simp only [hr]
      have hs : shouldPageBeShown items idx = true := by
        unfold shouldPageBeShown getItem
        cases hq : pyGet items idx with
        | none => simp [hq]
        | some q => simp [hq, h q (pyGet_mem hq)]
      by_cases hN : idx = (items.length : Int)
      · rw [if_pos hN]
      · rw [if_neg hN, if_pos hs]

theorem noHiddenCycle_of_allShown {items : List Page}
    (h : ∀ p ∈ items, p.should_show_function = none) :
    ¬ HasHiddenCycle items := by
  rintro ⟨i, k, hiter⟩
  rw [hiddenNextIter, hiddenNext_eq_none_of_allShown h i] at hiter
  cases hiter

/-! ### Claim theorems -/

/-- C8: resetState, from every prior state, sets current_page_index to 0,
empties the history stack and emits currentPageIndexChanged but not
allFinished; atEnd (the finish operation) emits allFinished first and then
performs the reset, so its event list is allFinished followed by
currentPageIndexChanged and its final state is the reset state. -/
theorem reset_and_finish_behavior (s : SeqState) :
    resetState s = (⟨0, []⟩, [Event.currentPageIndexChanged]) ∧
    atEnd s = (⟨0, []⟩, [Event.allFinished, Event.currentPageIndexChanged]) :=
  ⟨rfl, rfl⟩

/-- C9: currentProgress equals current_page_index divided by the number of
pages and is 0 when the page list is empty, and isCurrentPageLast holds
exactly when current_page_index equals the number of pages minus one. -/
theorem derived_progress_and_isLast (items : List Page) (s : SeqState) :
    (items.length = 0 → currentProgress items s = 0) ∧
    (items.length ≠ 0 →
      currentProgress items s = (s.current_page_index : ℚ) / (items.length : ℚ)) ∧
    (isCurrentPageLast items s = true ↔
      s.current_page_index = (items.length : Int) - 1) := by
  refine ⟨fun h => ?_, fun h => ?_, ?_⟩
  · simp [currentProgress, h]
  · simp [currentProgress, h]
  · simp [isCurrentPageLast]

/-- Witness for C9 at a concrete input: two pages, current index 1. -/
theorem derived_progress_and_isLast_witness :
    currentProgress plainPair ⟨1, []⟩ = 1 / 2 ∧ isCurrentPageLast plainPair ⟨1, []⟩ = true := by
  constructor
  · rw [(derived_progress_and_isLast plainPair ⟨1, []⟩).2.1 (by decide)]
    norm_num [plainPair]
  · rw [(derived_progress_and_isLast plainPair ⟨1, []⟩).2.2]
    decide

/-- C6: whenever the goToNextPage loop meets a next_page_id that names no
page, the call returns with the state unchanged and emits nothing, and
goToPage on an id that names no page likewise returns with the state
unchanged and emits nothing (only an error is logged). -/
theorem unknownId_leaves_state_unchanged :
    (∀ (items : List Page) (fuel : Nat) (s : SeqState) (from_index : Option Int) (pid : String),
      goToNextLoop items fuel (from_index.getD s.current_page_index) =
          some (NextResult.unknownId pid) →
      goToNextPage items fuel s from_index = some (OpResult.ok s [])) ∧
    (∀ (items : List Page) (fuel : Nat) (s : SeqState) (page_id : String),
      getPageIndexById items page_id = none →
      goToPage items fuel s page_id = some (OpResult.ok s [])) := by
  constructor
  · intro items fuel s from_index pid h
    unfold goToNextPage
    rw [h]
  · intro items fuel s page_id h
    unfold goToPage
    rw [h]

/-- Witness for C6 at a concrete input: a page whose next_page_id is the
unknown id zz, and a goToPage call with an id naming no page. -/
theorem unknownId_leaves_state_unchanged_witness :
    goToNextPage unknownIdPages 1 ⟨0, []⟩ none = some (OpResult.ok ⟨0, []⟩ []) ∧
    goToPage unknownIdPages 1 ⟨0, []⟩ ("nope") = some (OpResult.ok ⟨0, []⟩ []) :=
  ⟨unknownId_leaves_state_unchanged.1 unknownIdPages 1 ⟨0, []⟩ none ("zz") (by decide),
   unknownId_leaves_state_unchanged.2 unknownIdPages 1 ⟨0, []⟩ ("nope") (by decide)⟩

/-- C3 counterexample: the claim quantifies over goToNext, goToPrevious,
goToPageById and reset; but resetState from state ⟨1, []⟩ over
hiddenFirstPages sets current_page_index to 0, the index of a page whose
visibility predicate returns false. -/
theorem reset_sets_hidden_index_cex :
    resetState ⟨1, []⟩ = (⟨0, []⟩, [Event.currentPageIndexChanged]) ∧
    shouldPageBeShown hiddenFirstPages 0 = false :=
  ⟨rfl, by decide⟩

/-- C7 counterexample: over selfLoopPages (page a names itself as its
successor) the loop resolves the visible candidate 0 while the current
index is already 0; the claim demands a history push and a
currentPageIndexChanged emission, but _setCurrentPageIndex is a no-op when
the candidate equals the current index: no push, no event. -/
theorem goToNext_equal_candidate_no_push_cex :
    goToNextLoop selfLoopPages 1 0 = some (NextResult.move 0) ∧
    shouldPageBeShown selfLoopPages 0 = true ∧
    goToNextPage selfLoopPages 1 ⟨0, []⟩ none = some (OpResult.ok ⟨0, []⟩ []) :=
  ⟨by decide, by decide, by decide⟩

/-- C7 amended: whenever the loop exits with a visible candidate idx,
goToNextPage pushes the current index, moves to idx and emits
currentPageIndexChanged provided idx differs from the current index; when
idx equals the current index the call leaves the state unchanged and emits
nothing. -/
theorem goToNext_move_notification_amended (items : List Page) (fuel : Nat) (s : SeqState)
    (from_index : Option Int) (idx : Int)
    (hmove : goToNextLoop items fuel (from_index.getD s.current_page_index) =
      some (NextResult.move idx)) :
    goToNextPage items fuel s from_index =
      some (OpResult.ok
        (if idx = s.current_page_index then s
          else ⟨idx, s.history ++ [s.current_page_index]⟩)
        (if idx = s.current_page_index then []
          else [Event.currentPageIndexChanged])) := by
  unfold goToNextPage
  rw [hmove]
  by_cases h : idx = s.current_page_index <;> simp [setCurrentPageIndex, h]

/-- Witness for the amended C7 at a concrete input: two plain pages,
candidate 1 differs from current index 0, so the push and the emission
happen. -/
theorem goToNext_move_notification_amended_witness :
    goToNextPage plainPair 1 ⟨0, []⟩ none =
      some (OpResult.ok ⟨1, [0]⟩ [Event.currentPageIndexChanged]) := by
  have h := goToNext_move_notification_amended plainPair 1 ⟨0, []⟩ none 1 (by decide)
  simpa using h

/-- C10 counterexample: the claim says any from_index outside the interval
from 0 to the page count raises an uncaught IndexError; but Python list
indexing accepts negative indices, so from_index = -1 over the two
plainPair pages reads the last page, resolves candidate 0 and completes a
normal move: no IndexError. -/
theorem negative_from_index_no_indexError_cex :
    goToNextPage plainPair 1 ⟨1, []⟩ (some (-1)) =
      some (OpResult.ok ⟨0, [1]⟩ [Event.currentPageIndexChanged]) := by decide

/-- C5 counterexample: over backJumpPages the target page b (index 1) is
hidden and its next_page_id points back to page a (index 0); goToPage
lands on index 0, strictly before the hidden target, refuting that the
call lands at or after the target. -/
theorem goToPage_hidden_lands_before_target_cex :
    getPageIndexById backJumpPages ("b") = some 1 ∧
    shouldPageBeShown backJumpPages 1 = false ∧
    goToPage backJumpPages 5 ⟨2, []⟩ ("b") =
      some (OpResult.ok ⟨0, [2]⟩ [Event.currentPageIndexChanged]) ∧
    (0 : Int) < 1 :=
  ⟨by decide, by decide, by decide, by decide⟩

/-- Helper for the amended C10: starting anywhere in the Python-valid
index interval, the loop never raises, because every continuation index it
produces stays in that interval. -/
theorem goToNextLoop_no_indexError (items : List Page) :
    ∀ (f : Nat) (i : Int), -(items.length : Int) ≤ i → i < (items.length : Int) →
      goToNextLoop items f i ≠ some NextResult.indexError := by
  intro f
  induction f with
  | zero =>
    intro i h1 h2
    simp [goToNextLoop]
  | succ f ih =>
    intro i h1 h2
    rw [goToNextLoop]
    cases hp : pyGet items i with
    | none =>
      rw [pyGet_eq_none_iff] at hp
      omega
    | some page =>
      simp only [hp]
      cases hr : resolveNext items page i with
      | error pid => simp
      | ok idx =>
        simp only [hr]
        by_cases hN : idx = (items.length : Int)
        · simp [hN]
        · rw [if_neg hN]
          by_cases hs : shouldPageBeShown items idx = true
          · simp [hs]
          · rw [if_neg hs]
            have hb : -(items.length : Int) ≤ idx ∧ idx < (items.length : Int) := by
              rcases resolveNext_ok_bounds hr with h3 | h3 <;> omega
            exact ih idx hb.1 hb.2

/-- C10 amended: goToNextPage indexes the page list without a bounds
check.  On an empty list any call raises IndexError, and a from_index at
or beyond the page count, or below minus the page count, raises
IndexError; but a negative from_index of at least minus the page count
wraps around Python-style and does not raise, so the error branch is
unreachable exactly when the start index lies in the Python-valid interval
from minus the page count up to (excluding) the page count. -/
theorem goToNext_bounds_amended :
    (∀ (fuel : Nat) (s : SeqState) (from_index : Option Int),
      goToNextPage [] (fuel + 1) s from_index = some OpResult.indexError) ∧
    (∀ (items : List Page) (fuel : Nat) (s : SeqState) (fi : Int),
      ((items.length : Int) ≤ fi ∨ fi < -(items.length : Int)) →
      goToNextPage items (fuel + 1) s (some fi) = some OpResult.indexError) ∧
    (∀ (items : List Page) (fuel : Nat) (s : SeqState) (fi : Int),
      -(items.length : Int) ≤ fi → fi < (items.length : Int) →
      goToNextPage items fuel s (some fi) ≠ some OpResult.indexError) := by
  refine ⟨?_, ?_, ?_⟩
  · intro fuel s from_index
    unfold goToNextPage
    rw [goToNextLoop, pyGet_nil]
  · intro items fuel s fi h
    unfold goToNextPage
    rw [goToNextLoop]
    have hp : pyGet items ((some fi).getD s.current_page_index) = none := by
      rw [Option.getD_some, pyGet_eq_none_iff]
      exact h
    rw [hp]
  · intro items fuel s fi h1 h2 hcontra
    unfold goToNextPage at hcontra
    rw [Option.getD_some] at hcontra
    cases hl : goToNextLoop items fuel fi with
    | none => rw [hl] at hcontra; cases hcontra
    | some r =>
      rw [hl] at hcontra
      cases r with
      | indexError => exact goToNextLoop_no_indexError items fuel fi h1 h2 hl
      | unknownId pid => cases hcontra
      | finished => cases hcontra
      | move idx => cases hcontra

/-- Witness for the amended C10 at concrete inputs: the empty list raises,
from_index 1 on a one-page list raises, from_index 0 on it does not. -/
theorem goToNext_bounds_amended_witness :
    goToNextPage [] 1 ⟨0, []⟩ none = some OpResult.indexError ∧
    goToNextPage [pA] 1 ⟨0, []⟩ (some 1) = some OpResult.indexError ∧
    goToNextPage [pA] 1 ⟨0, []⟩ (some 0) ≠ some OpResult.indexError :=
  ⟨goToNext_bounds_amended.1 0 ⟨0, []⟩ none,
   goToNext_bounds_amended.2.1 [pA] 0 ⟨0, []⟩ 1 (Or.inl (by decide)),
   goToNext_bounds_amended.2.2 [pA] 1 ⟨0, []⟩ 0 (by decide) (by decide)⟩

/-- Helper: the last element of a list is one of its elements. -/
theorem mem_of_getLast?_eq {l : List Int} {a : Int} (h : l.getLast? = some a) : a ∈ l := by
  rcases List.eq_nil_or_concat l with rfl | ⟨L, b, rfl⟩
  · cases h
  · rw [List.concat_eq_append, List.getLast?_concat] at h
    injection h with h
    subst h
    simp

/-- C3 amended: the skip walk of goToNextPage only ever breaks at a
visible candidate, so any ok outcome of goToNextPage or goToPage either
keeps the current index, resets it to 0 (sequence completion), or sets it
to the index of a page that should be shown.  The exceptions the original
claim missed: resetState forces index 0 whether or not page 0 is visible,
and goToPreviousPage restores a popped history entry with no visibility
check at all. -/
theorem navigation_visibility_amended :
    (∀ (items : List Page) (fuel : Nat) (i idx : Int),
      goToNextLoop items fuel i = some (NextResult.move idx) →
      shouldPageBeShown items idx = true) ∧
    (∀ (items : List Page) (fuel : Nat) (s : SeqState) (from_index : Option Int)
        (r : SeqState) (evs : List Event),
      goToNextPage items fuel s from_index = some (OpResult.ok r evs) →
      r.current_page_index = s.current_page_index ∨ r.current_page_index = 0 ∨
        shouldPageBeShown items r.current_page_index = true) ∧
    (∀ (items : List Page) (fuel : Nat) (s : SeqState) (page_id : String)
        (r : SeqState) (evs : List Event),
      goToPage items fuel s page_id = some (OpResult.ok r evs) →
      r.current_page_index = s.current_page_index ∨ r.current_page_index = 0 ∨
        shouldPageBeShown items r.current_page_index = true) ∧
    (∀ s : SeqState, (resetState s).1.current_page_index = 0) ∧
    (∀ (s : SeqState) (r : SeqState) (evs : List Event),
      goToPreviousPage s = (r, evs) →
      r.current_page_index = s.current_page_index ∨ r.current_page_index ∈ s.history) := by
  have hnext : ∀ (items : List Page) (fuel : Nat) (s : SeqState) (from_index : Option Int)
      (r : SeqState) (evs : List Event),
      goToNextPage items fuel s from_index = some (OpResult.ok r evs) →
      r.current_page_index = s.current_page_index ∨ r.current_page_index = 0 ∨
        shouldPageBeShown items r.current_page_index = true := by
    intro items fuel s from_index r evs h
    unfold goToNextPage at h
    cases hl : goToNextLoop items fuel (from_index.getD s.current_page_index) with
    | none => rw [hl] at h; cases h
    | some nr =>
      rw [hl] at h
      cases nr with
      | indexError => cases h
      | unknownId pid =>
        injection h with h
        injection h with h1 h2
        subst h1
        exact Or.inl rfl
      | finished =>
        injection h with h
        injection h with h1 h2
        subst h1
        exact Or.inr (Or.inl rfl)
      | move idx =>
        injection h with h
        injection h with h1 h2
        unfold setCurrentPageIndex at h1
        by_cases he : idx = s.current_page_index
        · rw [if_neg (by simpa using he)] at h1
          subst h1
          exact Or.inl rfl
        · rw [if_pos (by simpa using he)] at h1
          subst h1
          exact Or.inr (Or.inr (goToNextLoop_move_shown hl))
  refine ⟨?_, hnext, ?_, fun s => rfl, ?_⟩
  · intro items fuel i idx h
    exact goToNextLoop_move_shown h
  · intro items fuel s page_id r evs h
    unfold goToPage at h
    cases hg : getPageIndexById items page_id with
    | none =>
      rw [hg] at h
      injection h with h
      injection h with h1 h2
      subst h1
      exact Or.inl rfl
    | some page_index =>
      simp only [hg] at h
      by_cases hs : shouldPageBeShown items page_index = true
      · rw [if_pos hs] at h
        injection h with h
        injection h with h1 h2
        unfold setCurrentPageIndex at h1
        by_cases he : page_index = s.current_page_index
        · rw [if_neg (by simpa using he)] at h1
          subst h1
          exact Or.inl rfl
        · rw [if_pos (by simpa using he)] at h1
          subst h1
          exact Or.inr (Or.inr hs)
      · rw [if_neg hs] at h
        exact hnext items fuel s (some page_index) r evs h
  · intro s r evs h
    unfold goToPreviousPage at h
    cases hl : s.history.getLast? with
    | none =>
      rw [hl] at h
      injection h with h1 h2
      subst h1
      exact Or.inl rfl
    | some j =>
      rw [hl] at h
      injection h with h1 h2
      subst h1
      exact Or.inr (mem_of_getLast?_eq hl)

/-- Witness for the amended C3 at a concrete input: a successful forward
move over plainPair lands on index 1, which is a visible page. -/
theorem navigation_visibility_amended_witness :
    (⟨1, [0]⟩ : SeqState).current_page_index = (⟨0, []⟩ : SeqState).current_page_index ∨
    (⟨1, [0]⟩ : SeqState).current_page_index = 0 ∨
    shouldPageBeShown plainPair (⟨1, [0]⟩ : SeqState).current_page_index = true :=
  navigation_visibility_amended.2.1 plainPair 1 ⟨0, []⟩ none ⟨1, [0]⟩
    [Event.currentPageIndexChanged] (by decide)

/-- C5 amended: goToPage on an id resolving to a visible page pushes the
current index and jumps directly only when the target index differs from
the current one; when they coincide it is a no-op with no push and no
event.  On an id resolving to a hidden page it delegates to goToNextPage
started from that index, whose successful moves only land on visible pages
(so never on the hidden target), though an explicit next_page_id may place
the landing index before the target. -/
theorem goToPage_behavior_amended :
    (∀ (items : List Page) (fuel : Nat) (s : SeqState) (page_id : String) (idx : Int),
      getPageIndexById items page_id = some idx → shouldPageBeShown items idx = true →
      idx ≠ s.current_page_index →
      goToPage items fuel s page_id =
        some (OpResult.ok ⟨idx, s.history ++ [s.current_page_index]⟩
          [Event.currentPageIndexChanged])) ∧
    (∀ (items : List Page) (fuel : Nat) (s : SeqState) (page_id : String) (idx : Int),
      getPageIndexById items page_id = some idx → shouldPageBeShown items idx = true →
      idx = s.current_page_index →
      goToPage items fuel s page_id = some (OpResult.ok s [])) ∧
    (∀ (items : List Page) (fuel : Nat) (s : SeqState) (page_id : String) (idx : Int),
      getPageIndexById items page_id = some idx → shouldPageBeShown items idx = false →
      goToPage items fuel s page_id = goToNextPage items fuel s (some idx)) ∧
    (∀ (items : List Page) (fuel : Nat) (i idx j : Int),
      shouldPageBeShown items idx = false →
      goToNextLoop items fuel i = some (NextResult.move j) → j ≠ idx) := by
  refine ⟨?_, ?_, ?_, ?_⟩
  · intro items fuel s page_id idx hg hs hne
    unfold goToPage
    simp only [hg]
    rw [if_pos hs]
    unfold setCurrentPageIndex
    rw [if_pos (by simpa using hne)]
  · intro items fuel s page_id idx hg hs heq
    unfold goToPage
    simp only [hg]
    rw [if_pos hs]
    unfold setCurrentPageIndex
    rw [if_neg (by simpa using heq)]
  · intro items fuel s page_id idx hg hs
    unfold goToPage
    simp only [hg]
    rw [if_neg (by simp [hs])]
  · intro items fuel i idx j hhid hmove heq
    subst heq
    rw [goToNextLoop_move_shown hmove] at hhid
    cases hhid

/-- Witness for the amended C5 at concrete inputs: a direct jump to the
visible page b of plainPair, and over backJumpPages the hidden branch
delegates and its move avoids the hidden index 1. -/
theorem goToPage_behavior_amended_witness :
    goToPage plainPair 1 ⟨0, []⟩ ("b") =
      some (OpResult.ok ⟨1, [0]⟩ [Event.currentPageIndexChanged]) ∧
    goToPage backJumpPages 5 ⟨2, []⟩ ("b") = goToNextPage backJumpPages 5 ⟨2, []⟩ (some 1) ∧
    (0 : Int) ≠ 1 :=
  ⟨goToPage_behavior_amended.1 plainPair 1 ⟨0, []⟩ ("b") 1 (by decide) (by decide) (by decide),
   goToPage_behavior_amended.2.2.1 backJumpPages 5 ⟨2, []⟩ ("b") 1 (by decide) (by decide),
   goToPage_behavior_amended.2.2.2 backJumpPages 5 1 1 0 (by decide) (by decide)⟩

/-- Helper: unfolding rule for intRange. -/
theorem intRange_succ (k : Nat) : intRange (k + 1) = intRange k ++ [(k : Int)] := by
  simp [intRange, List.range_succ]

/-- Helper for C1 and C4: over a configuration with no next_page_id and no
should_show_function, a single goToNextPage from index k either finishes
(k was the last page) or moves to k + 1 pushing k; fuel 1 suffices. -/
theorem plain_goToNext_step (items : List Page)
    (hplain : ∀ p ∈ items, p.next_page_id = none ∧ p.should_show_function = none)
    (k : Nat) (h : List Int) (hk : k < items.length) :
    goToNextPage items 1 ⟨(k : Int), h⟩ none =
      if k + 1 = items.length then
        some (OpResult.ok ⟨0, []⟩ [Event.allFinished, Event.currentPageIndexChanged])
      else
        some (OpResult.ok ⟨(k : Int) + 1, h ++ [(k : Int)]⟩
          [Event.currentPageIndexChanged]) := by
  obtain ⟨p, hget⟩ : ∃ p, items.get? k = some p := ⟨items.get ⟨k, hk⟩, List.get?_eq_get hk⟩
  have hmem : p ∈ items := List.get?_mem hget
  have hpy : pyGet items (k : Int) = some p := by rw [pyGet_natCast, hget]
  have hres : resolveNext items p (k : Int) = Except.ok ((k : Int) + 1) := by
    unfold resolveNext activeNextPageId
    rw [(hplain p hmem).1]
  have hloop : goToNextLoop items 1 (k : Int) =
      if (k : Int) + 1 = (items.length : Int) then some NextResult.finished
      else some (NextResult.move ((k : Int) + 1)) := by
    rw [goToNextLoop]
    simp only [hpy, hres]
    by_cases hend : (k : Int) + 1 = (items.length : Int)
    · rw [if_pos hend, if_pos hend]
    · have hk2 : k + 1 < items.length := by omega
      have hshow : shouldPageBeShown items ((k : Int) + 1) = true := by
        have e : (k : Int) + 1 = ((k + 1 : Nat) : Int) := by push_cast; ring
        rw [e]
        unfold shouldPageBeShown getItem
        rw [pyGet_natCast]
        obtain ⟨q, hq⟩ : ∃ q, items.get? (k + 1) = some q :=
          ⟨items.get ⟨k + 1, hk2⟩, List.get?_eq_get hk2⟩
        rw [hq]
        simp [(hplain q (List.get?_mem hq)).2]
      rw [if_neg hend, if_neg hend, if_pos hshow]
  unfold goToNextPage
  simp only [Option.getD_none]
  rw [hloop]
  by_cases hend : k + 1 = items.length
  · rw [if_pos (show (k : Int) + 1 = (items.length : Int) by omega), if_pos hend]
    rfl
  · rw [if_neg (show ¬((k : Int) + 1 = (items.length : Int)) by omega), if_neg hend]
    have hne : (k : Int) + 1 ≠ (⟨(k : Int), h⟩ : SeqState).current_page_index := by
      show (k : Int) + 1 ≠ (k : Int)
      omega
    simp [setCurrentPageIndex, hne]

/-- Helper for C1 and C4: n plain forward calls from index j, with
j + n still short of the page count, land on index j + n with history
0..j-1 extended to 0..j+n-1 and one index-changed event per call. -/
theorem plain_iterNext_lt (items : List Page)
    (hplain : ∀ p ∈ items, p.next_page_id = none ∧ p.should_show_function = none) :
    ∀ (n j : Nat), j + n < items.length →
      iterNext items 1 n ⟨(j : Int), intRange j⟩ =
        some (⟨((j + n : Nat) : Int), intRange (j + n)⟩,
          List.replicate n Event.currentPageIndexChanged) := by
  intro n
  induction n with
  | zero =>
    intro j hj
    simp [iterNext]
  | succ n ih =>
    intro j hj
    rw [iterNext, plain_goToNext_step items hplain j (intRange j) (by omega),
      if_neg (by omega)]
    have e1 : (j : Int) + 1 = ((j + 1 : Nat) : Int) := by push_cast; ring
    rw [e1, ← intRange_succ j]
    simp only [ih (j + 1) (by omega)]
    have e2 : j + 1 + n = j + (n + 1) := by omega
    simp [e2, List.replicate_succ]

/-- Helper for C1: n plain forward calls from index j with j + n equal to
the page count finish on the last call: the state resets and the event
trace is the n - 1 index changes followed by allFinished and the reset
index change. -/
theorem plain_iterNext_full (items : List Page)
    (hplain : ∀ p ∈ items, p.next_page_id = none ∧ p.should_show_function = none) :
    ∀ (n j : Nat), 1 ≤ n → j + n = items.length →
      iterNext items 1 n ⟨(j : Int), intRange j⟩ =
        some (⟨0, []⟩, List.replicate (n - 1) Event.currentPageIndexChanged ++
          [Event.allFinished, Event.currentPageIndexChanged]) := by
  intro n
  induction n with
  | zero => intro j h1 h2; omega
  | succ n ih =>
    intro j _ hj
    rw [iterNext, plain_goToNext_step items hplain j (intRange j) (by omega)]
    by_cases hend : j + 1 = items.length
    · have hn : n = 0 := by omega
      subst hn
      rw [if_pos hend]
      simp [iterNext]
    · rw [if_neg hend]
      have e1 : (j : Int) + 1 = ((j + 1 : Nat) : Int) := by push_cast; ring
      rw [e1, ← intRange_succ j]
      simp only [ih (j + 1) (by omega) (by omega)]
      obtain ⟨m, rfl⟩ : ∃ m, n = m + 1 := ⟨n - 1, by omega⟩
      simp [List.replicate_succ]

/-- C1: over every non-empty configuration in which no page has a
next_page_id and no page has a should_show_function, N goToNextPage calls
from the fresh state visit the indices 0 to N-1 in order (after k calls
with k < N the current index is k and only k index-changed events have
been emitted, so no completion yet), and the N-th call emits allFinished
exactly once, after which the state is reset to index 0 with empty
history. -/
theorem linear_sequence_completion (items : List Page)
    (hne : items.length ≠ 0)
    (hplain : ∀ p ∈ items, p.next_page_id = none ∧ p.should_show_function = none) :
    (∀ k, k < items.length →
      iterNext items 1 k ⟨0, []⟩ =
        some (⟨(k : Int), intRange k⟩,
          List.replicate k Event.currentPageIndexChanged)) ∧
    iterNext items 1 items.length ⟨0, []⟩ =
      some (⟨0, []⟩, List.replicate (items.length - 1) Event.currentPageIndexChanged ++
        [Event.allFinished, Event.currentPageIndexChanged]) := by
  constructor
  · intro k hk
    have h := plain_iterNext_lt items hplain k 0 (by omega)
    simpa [intRange] using h
  · have h := plain_iterNext_full items hplain items.length 0 (by omega) (by omega)
    simpa [intRange] using h

/-- Witness for C1 at a concrete input: the two plainPair pages. -/
theorem linear_sequence_completion_witness :
    iterNext plainPair 1 1 ⟨0, []⟩ =
      some (⟨1, [0]⟩, [Event.currentPageIndexChanged]) ∧
    iterNext plainPair 1 2 ⟨0, []⟩ =
      some (⟨0, []⟩, [Event.currentPageIndexChanged, Event.allFinished,
        Event.currentPageIndexChanged]) := by
  have h := linear_sequence_completion plainPair (by decide) (by decide)
  constructor
  · have h1 := h.1 1 (by decide)
    simpa [intRange] using h1
  · have h2 := h.2
    simpa using h2

/-- Helper for C4: from current index k with history 0..k-1, j pops (with
j at most k) land on index k - j with history 0..k-j-1, one index-changed
event per pop. -/
theorem iterPrev_intRange :
    ∀ (j k : Nat), j ≤ k →
      iterPrev j ⟨(k : Int), intRange k⟩ =
        (⟨((k - j : Nat) : Int), intRange (k - j)⟩,
          List.replicate j Event.currentPageIndexChanged) := by
  intro j
  induction j with
  | zero =>
    intro k _
    simp [iterPrev]
  | succ j ih =>
    intro k hk
    obtain ⟨m, rfl⟩ : ∃ m, k = m + 1 := ⟨k - 1, by omega⟩
    have hpop : goToPreviousPage ⟨((m + 1 : Nat) : Int), intRange (m + 1)⟩ =
        (⟨(m : Int), intRange m⟩, [Event.currentPageIndexChanged]) := by
      unfold goToPreviousPage
      rw [show (⟨((m + 1 : Nat) : Int), intRange (m + 1)⟩ : SeqState).history =
        intRange (m + 1) from rfl, intRange_succ m, List.getLast?_concat,
        List.dropLast_concat]
    rw [iterPrev]
    simp only [hpop]
    simp only [ih m (by omega)]
    have e : m + 1 - (j + 1) = m - j := by omega
    simp [e, List.replicate_succ]

/-- C4: goToPreviousPage pops the top of the history straight into the
current index with no re-push and no visibility check (the operation never
reads the page list), and is a no-op on an empty history; in the plain
configuration of C1, after k forward calls (k < N) the pops revisit the
indices k-1 down to 0 in exactly reverse visit order, and after N forward
calls the completion reset has emptied the history so a further pop is
immediately a no-op. -/
theorem history_reverse_navigation (items : List Page)
    (hplain : ∀ p ∈ items, p.next_page_id = none ∧ p.should_show_function = none) :
    (∀ (s : SeqState) (j : Int), s.history.getLast? = some j →
      goToPreviousPage s = (⟨j, s.history.dropLast⟩, [Event.currentPageIndexChanged])) ∧
    (∀ s : SeqState, s.history = [] → goToPreviousPage s = (s, [])) ∧
    (∀ k, k < items.length → ∀ sk evk, iterNext items 1 k ⟨0, []⟩ = some (sk, evk) →
      ∀ j, j ≤ k → iterPrev j sk =
        (⟨((k - j : Nat) : Int), intRange (k - j)⟩,
          List.replicate j Event.currentPageIndexChanged)) ∧
    (items.length ≠ 0 → ∀ sN evN, iterNext items 1 items.length ⟨0, []⟩ = some (sN, evN) →
      goToPreviousPage sN = (sN, [])) := by
  refine ⟨?_, ?_, ?_, ?_⟩
  · intro s j h
    unfold goToPreviousPage
    rw [h]
  · intro s h
    unfold goToPreviousPage
    rw [h]
    rfl
  · intro k hk sk evk hiter j hj
    have h := plain_iterNext_lt items hplain k 0 (by omega)
    rw [show (⟨((0 : Nat) : Int), intRange 0⟩ : SeqState) = ⟨0, []⟩ from rfl, hiter] at h
    injection h with h
    injection h with h1 h2
    subst h1
    simp only [Nat.zero_add]
    exact iterPrev_intRange j k hj
  · intro hne sN evN hiter
    have h := plain_iterNext_full items hplain items.length 0 (by omega) (by omega)
    rw [show (⟨((0 : Nat) : Int), intRange 0⟩ : SeqState) = ⟨0, []⟩ from rfl, hiter] at h
    injection h with h
    injection h with h1 h2
    subst h1
    rfl

/-- Witness for C4 at a concrete input: one forward call over plainPair
then one pop returns to index 0; the empty-history no-op on the reset
state. -/
theorem history_reverse_navigation_witness :
    iterPrev 1 (⟨1, [0]⟩ : SeqState) = (⟨0, []⟩, [Event.currentPageIndexChanged]) ∧
    goToPreviousPage ⟨0, []⟩ = (⟨0, []⟩, []) := by
  have h := history_reverse_navigation plainPair (by decide)
  constructor
  · have h1 := h.2.2.1 1 (by decide) ⟨1, [0]⟩ [Event.currentPageIndexChanged] (by decide)
      1 (by decide)
    simpa [intRange] using h1
  · exact h.2.1 ⟨0, []⟩ rfl

/-- Helper for C2: the two hidden cycle pages of cyclePages feed the loop
back and forth forever: at every fuel the loop from index 1 or 2 runs out
of fuel instead of exiting. -/
theorem cyclePages_loop_none : ∀ f : Nat,
    goToNextLoop cyclePages f 1 = none ∧ goToNextLoop cyclePages f 2 = none
  | 0 => ⟨rfl, rfl⟩
  | f + 1 => by
    obtain ⟨h1, h2⟩ := cyclePages_loop_none f
    exact ⟨h2, h1⟩

/-- Helper for C2: without a cycle of hidden pages, the loop started in
range exits within page-count + 1 iterations; by fuel monotonicity every
larger fuel gives the same exit.  The core is a pigeonhole argument: a run
of page-count + 1 continuation steps stays among the page indices, so some
hidden index repeats, which is exactly a hidden cycle. -/
theorem goToNextLoop_terminates_of_no_cycle (items : List Page) (start : Int)
    (h0 : 0 ≤ start) (hN : start < (items.length : Int))
    (hnc : ¬ HasHiddenCycle items) :
    ∃ r, ∀ f, items.length + 1 ≤ f → goToNextLoop items f start = some r := by
  have key : goToNextLoop items (items.length + 1) start ≠ none := by
    intro hnone
    have chain : ∀ t, t ≤ items.length + 1 →
        ∃ j, hiddenNextIter items t start = some j ∧ 0 ≤ j ∧ j < (items.length : Int) ∧
          goToNextLoop items (items.length + 1 - t) j = none := by
      intro t
      induction t with
      | zero => intro _; exact ⟨start, rfl, h0, hN, hnone⟩
      | succ t ih =>
        intro ht
        obtain ⟨j, hiter, hj0, hjN, hloop⟩ := ih (by omega)
        obtain ⟨f2, hf2⟩ : ∃ f2, items.length + 1 - t = f2 + 1 :=
          ⟨items.length - t, by omega⟩
        rw [hf2] at hloop
        obtain ⟨j2, hstep, hloop2⟩ := goToNextLoop_none_step hloop
        have hb := hiddenNext_bounds hj0 hjN hstep
        refine ⟨j2, ?_, hb.1, hb.2, ?_⟩
        · rw [hiddenNextIter_succ_right, hiter]
          exact hstep
        · have e : items.length + 1 - (t + 1) = f2 := by omega
          rw [e]
          exact hloop2
    apply hnc
    have maps : ∀ t ∈ Finset.range (items.length + 1),
        ((hiddenNextIter items (t + 1) start).getD 0).toNat ∈ Finset.range items.length := by
      intro t ht
      simp only [Finset.mem_range] at ht ⊢
      obtain ⟨j, hiter, hj0, hjN, _⟩ := chain (t + 1) (by omega)
      rw [hiter, Option.getD_some]
      omega
    have hcard : (Finset.range items.length).card < (Finset.range (items.length + 1)).card := by
      simp
    obtain ⟨a, ha, b, hb2, hab, heq⟩ :=
      Finset.exists_ne_map_eq_of_card_lt_of_maps_to hcard maps
    simp only [Finset.mem_range] at ha hb2
    have main : ∀ a b : Nat, a < b → b < items.length + 1 →
        ((hiddenNextIter items (a + 1) start).getD 0).toNat =
          ((hiddenNextIter items (b + 1) start).getD 0).toNat →
        HasHiddenCycle items := by
      intro a b hab2 hblt heq2
      obtain ⟨ja, hja, hja0, hjaN, _⟩ := chain (a + 1) (by omega)
      obtain ⟨jb, hjb, hjb0, hjbN, _⟩ := chain (b + 1) (by omega)
      rw [hja, Option.getD_some] at heq2
      rw [hjb, Option.getD_some] at heq2
      have hjeq : ja = jb := by omega
      have hadd := hiddenNextIter_add items (a + 1) (b - a) start
      have e1 : a + 1 + (b - a) = b + 1 := by omega
      rw [e1] at hadd
      simp only [hja] at hadd
      obtain ⟨m, hm⟩ : ∃ m, b - a = m + 1 := ⟨b - a - 1, by omega⟩
      refine ⟨ja, m, ?_⟩
      rw [← hm, ← hadd, hjb, hjeq]
    rcases Nat.lt_or_ge a b with h | h
    · exact main a b h (by omega) heq
    · exact main b a (by omega) (by omega) heq.symm
  cases hr : goToNextLoop items (items.length + 1) start with
  | none => exact absurd hr key
  | some r => exact ⟨r, fun f hf => goToNextLoop_mono hr hf⟩

/-- C2: the goToNextPage skip loop exits, within page-count + 1
iterations and with the same exit at any larger fuel, from every valid
start index of every configuration that has no cycle consisting entirely
of hidden pages; conversely over cyclePages, whose next_page_id pointers
form a cycle among two pages that are always hidden, the loop started at
index 0 exits at no fuel whatsoever: the code has no cycle or
iteration-count guard. -/
theorem goToNext_termination_dichotomy :
    (∀ (items : List Page) (start : Int), 0 ≤ start → start < (items.length : Int) →
      ¬ HasHiddenCycle items →
      ∃ r, ∀ f, items.length + 1 ≤ f → goToNextLoop items f start = some r) ∧
    (∀ f : Nat, goToNextLoop cyclePages f 0 = none) := by
  constructor
  · exact goToNextLoop_terminates_of_no_cycle
  · intro f
    cases f with
    | zero => rfl
    | succ f => exact (cyclePages_loop_none f).1

/-- Witness for C2 at a concrete input: plainPair has no hidden page at
all, hence no hidden cycle, and the loop from index 0 exits at any fuel
of at least 3. -/
theorem goToNext_termination_dichotomy_witness :
    ∃ r, ∀ f, 3 ≤ f → goToNextLoop plainPair f 0 = some r :=
  goToNext_termination_dichotomy.1 plainPair 0 (by decide) (by decide)
    (noHiddenCycle_of_allShown (by decide))

end WelcomePages
